import Mathlib

/-!
Verification of the Zone Assignment & Persistence Engine of the
multi-zone delivery planner (source: `delivery_zone_draw_tool_multi_v_1_2.py`,
app version v1.4).

Shallow embedding conventions:
* Geographic coordinates (double-precision degrees in the source) are
  embedded as exact rationals `ℚ`.
* The customer table `gdf` is a list of `Customer` records in file order;
  `gdf[gdf.geometry.within(geom)]` becomes `List.filter` with the
  point-in-interior test `within` (shapely `Point.within(Polygon)` holds
  iff the point lies in the topological interior of the polygon:
  boundary points and points inside holes are excluded; embedded here as
  the standard exact even-odd crossing test plus a boundary check).
* The session dictionary `st.session_state.zones` (a Python `dict`,
  which preserves insertion order and keeps the position of an updated
  key) is embedded as an association list with `upsert`.
* `json.loads` / `json.dumps` (external library, inverse bijections on
  the payloads used here) are not re-implemented byte-by-byte: an
  uploaded file is a `RawUpload` carrying its raw bytes (hashed by the
  once-only guard) together with the decode outcome of those bytes.
  A payload whose top level is neither a feature collection nor an
  object of zone records fails before any zone is touched, exactly as a
  `json.loads` failure does, so both are embedded as `Except.error`.
* shapely's `shape` on a geometry description either yields a polygon or
  raises; embedded as `shape : RawGeom → Except String Polygon`.
-/

namespace DeliveryZone

/-- A planar point with exact rational coordinates (x = longitude, y = latitude). -/
structure Pt where
  x : ℚ
  y : ℚ
deriving DecidableEq, Repr

/-- A polygon given by its rings (first ring exterior, remaining rings holes),
each ring a closed vertex list as in a GeoJSON geometry. -/
structure Polygon where
  rings : List (List Pt)
deriving DecidableEq, Repr

/-- Edges of a ring: consecutive vertex pairs, wrapping around. -/
def ringEdges (r : List Pt) : List (Pt × Pt) := r.zip (r.rotate 1)

/-- Point `p` lies on the closed segment from `a` to `b`. -/
def onSegment (p a b : Pt) : Bool :=
  decide ((b.x - a.x) * (p.y - a.y) - (b.y - a.y) * (p.x - a.x) = 0)
  && decide (min a.x b.x ≤ p.x) && decide (p.x ≤ max a.x b.x)
  && decide (min a.y b.y ≤ p.y) && decide (p.y ≤ max a.y b.y)

/-- A rightward horizontal ray from `p` crosses the edge from `a` to `b`
(standard even-odd crossing rule, half-open in y). -/
def edgeCrosses (p a b : Pt) : Bool :=
  (decide (a.y > p.y) != decide (b.y > p.y))
  && decide (p.x < a.x + (b.x - a.x) * (p.y - a.y) / (b.y - a.y))

/-- Parity of ray crossings of `p` against ring `r`. -/
def ringCrossOdd (p : Pt) (r : List Pt) : Bool :=
  (ringEdges r).foldl (fun acc e => Bool.xor acc (edgeCrosses p e.1 e.2)) false

/-- Point `p` lies on the boundary of ring `r`. -/
def onRingBoundary (p : Pt) (r : List Pt) : Bool :=
  (ringEdges r).any (fun e => onSegment p e.1 e.2)

/-- Embedding of shapely `Point.within(polygon)`: the point lies in the
interior of the polygon.  Boundary points (of any ring) are excluded, and
even-odd parity over all rings excludes points lying inside a hole. -/
def within (p : Pt) (poly : Polygon) : Bool :=
  !(poly.rings.any (fun r => onRingBoundary p r))
  && (poly.rings.foldl (fun acc r => Bool.xor acc (ringCrossOdd p r)) false)

/-- One customer row of `Consolidated_Customer_Geocoded_List.csv` as loaded
into `gdf` (the columns the source reads, plus the geometry point built
from Longitude/Latitude by `points_from_xy`). -/
structure Customer where
  customerId : String
  streetAddress : String
  lifetimeNetSales : ℚ
  lifetimeAvgOrderValue : ℚ
  latitude : ℚ
  longitude : ℚ
deriving DecidableEq, Repr

/-- The geometry point of a customer: `points_from_xy(df.Longitude, df.Latitude)`. -/
def Customer.point (c : Customer) : Pt := ⟨c.longitude, c.latitude⟩

/-- Embedding of `gdf[gdf.geometry.within(geom)]`: the roster rows whose
point lies within the polygon, in roster (row) order. -/
def computeMembers (roster : List Customer) (poly : Polygon) : List Customer :=
  roster.filter (fun c => within c.point poly)

/-- Drop the closing vertex of a closed ring (first vertex repeated at the
end), leaving the essential vertex cycle. -/
def stripClosure (r : List Pt) : List Pt :=
  if 2 ≤ r.length ∧ r.head? = r.getLast? then r.dropLast else r

/-- All cyclic rotations of a vertex cycle, in both traversal directions. -/
def ringVersions (s : List Pt) : List (List Pt) :=
  (List.range s.length).map (fun k => s.rotate k)
    ++ (List.range s.length).map (fun k => s.reverse.rotate k)

/-- Two closed rings describe the same vertex cycle irrespective of start
vertex and traversal direction. -/
def ringEquiv (a b : List Pt) : Bool :=
  let sa := stripClosure a
  let sb := stripClosure b
  decide (sa = sb) || (ringVersions sa).any (fun v => decide (v = sb))

/-- Embedding of shapely `equals` for the polygons handled by the tool:
ring-by-ring vertex-cycle equality, insensitive to start vertex and
traversal direction (the normalized-comparison reading sanctioned by the
specification). -/
def geomEquals (p q : Polygon) : Bool :=
  decide (p.rings.length = q.rings.length)
  && (p.rings.zip q.rings).all (fun rr => ringEquiv rr.1 rr.2)

/-- One saved zone record: `{geometry, data, count, color}` of the session
dictionary. -/
structure Zone where
  geometry : Polygon
  data : List Customer
  count : Nat
  color : String
deriving DecidableEq, Repr

/-- Python `dict` assignment `zones[label] = z`: replaces in place if the
label is present, otherwise appends (insertion order preserved). -/
def upsert (zones : List (String × Zone)) (label : String) (z : Zone) :
    List (String × Zone) :=
  if zones.any (fun lz => decide (lz.1 = label)) then
    zones.map (fun lz => if lz.1 = label then (label, z) else lz)
  else
    zones ++ [(label, z)]

/-- Dictionary lookup by label (labels are unique in a store). -/
def lookupZ (label : String) : List (String × Zone) → Option Zone
  | [] => none
  | (l, z) :: rest => if l = label then some z else lookupZ label rest

/-- The fixed color palette of the drawn-save path. -/
def palette : List String := ["red", "blue", "green", "purple", "orange"]

/-- The "Save Zone" path for a freshly drawn polygon: if the shape is
geometrically equal to a stored geometry the save is not offered (store
unchanged); otherwise members are computed, the palette color is cycled on
the store size before insertion, and the zone is stored under the label. -/
def save_zone (roster : List Customer) (new_poly : Polygon) (label : String)
    (zones : List (String × Zone)) : List (String × Zone) :=
  if zones.any (fun lz => geomEquals new_poly lz.2.geometry) then
    zones
  else
    let inside := computeMembers roster new_poly
    let color := palette.getD (zones.length % palette.length) "red"
    upsert zones label ⟨new_poly, inside, inside.length, color⟩

/-- A raw GeoJSON-style geometry description inside an import record, as
consumed by shapely `shape`: either a well-formed polygon description or a
malformed one (wrong type tag, bad nesting, ...) on which `shape` raises. -/
inductive RawGeom where
  | polygonGeom (rings : List (List Pt))
  | malformed (msg : String)
deriving DecidableEq, Repr

/-- Embedding of shapely `shape` on a geometry description: parses a
polygon description, raises (here: `Except.error`) on a malformed one. -/
def shape : RawGeom → Except String Polygon
  | .polygonGeom rs => .ok ⟨rs⟩
  | .malformed msg => .error msg

/-- Embedding of shapely `mapping`: serialize a polygon back to a raw
geometry description (exact inverse of `shape` on polygon descriptions). -/
def mappingGeom (p : Polygon) : RawGeom := .polygonGeom p.rings

/-- One feature record of a GeoJSON FeatureCollection import payload:
a geometry plus optional `name` and `color` properties. -/
structure Feature where
  geometry : RawGeom
  name : Option String
  color : Option String
deriving DecidableEq, Repr

/-- One record of the legacy import form: the value attached to a zone
label, carrying a geometry and an optional color. -/
structure LegacyInfo where
  geometry : RawGeom
  color : Option String
deriving DecidableEq, Repr

/-- Decoded top-level import payload: either a FeatureCollection
(`data.get("type") == "FeatureCollection"`) or the legacy object keyed by
zone labels. -/
inductive ImportData where
  | featureCollection (features : List Feature)
  | legacy (entries : List (String × LegacyInfo))
deriving DecidableEq, Repr

/-- An uploaded file: its raw byte content (hashed by the once-only import
guard) together with the JSON-decode outcome of those bytes.  A payload
that is not JSON, or whose top level is not one of the two supported
object shapes, decodes to `Except.error` (both raise inside the same
`try`, with the store untouched). -/
structure RawUpload where
  bytes : List Nat
  parsed : Except String ImportData
deriving Repr

/-- Content fingerprint of the raw uploaded bytes (Python `hash(file_bytes)`):
a deterministic function of the byte content. -/
def hashBytes (bs : List Nat) : Nat :=
  bs.foldl (fun a b => a * 1000003 + b + 1) 5381

/-- The user-facing outcome of an upload: `st.success` for the two import
branches, `st.error` on an exception, `st.info` when the file hash matches
the previous upload. -/
inductive ImportMsg where
  | successGeo (imported : Nat)
  | successLegacy (n : Nat)
  | failure (e : String)
  | alreadyImported
deriving DecidableEq, Repr

/-- The FeatureCollection import loop.  Each feature's geometry is parsed
with `shape`; the zone is stored under the `name` property (default
`"Zone {len(zones)+1}"` at that moment) with the `color` property (default
`"red"`), members recomputed from the roster.  A `shape` failure escapes
to the surrounding `try`, so the loop stops there: the store mutations
already made persist and the error is returned. -/
def processFeatures (roster : List Customer) :
    List Feature → List (String × Zone) → Nat →
    List (String × Zone) × Except String Nat
  | [], zones, imported => (zones, .ok imported)
  | f :: rest, zones, imported =>
    match shape f.geometry with
    | .error e => (zones, .error e)
    | .ok geom =>
      let label := f.name.getD ("Zone " ++ toString (zones.length + 1))
      let color := f.color.getD "red"
      let inside := computeMembers roster geom
      processFeatures roster rest
        (upsert zones label ⟨geom, inside, inside.length, color⟩) (imported + 1)

/-- The legacy import loop over `data.items()`: key is the label, value
carries the geometry and optional color (default `"red"`); members
recomputed from the roster.  As above, a `shape` failure aborts the loop
with the store mutations made so far kept. -/
def processLegacy (roster : List Customer) :
    List (String × LegacyInfo) → List (String × Zone) →
    List (String × Zone) × Except String Unit
  | [], zones => (zones, .ok ())
  | (label, info) :: rest, zones =>
    match shape info.geometry with
    | .error e => (zones, .error e)
    | .ok geom =>
      let color := info.color.getD "red"
      let inside := computeMembers roster geom
      processLegacy roster rest
        (upsert zones label ⟨geom, inside, inside.length, color⟩)

/-- Session state: the ordered zone dictionary and the hash of the last
processed upload (`None` at session start). -/
structure AppState where
  zones : List (String × Zone)
  last_upload_hash : Option Nat
deriving DecidableEq, Repr

/-- The whole upload handler: hash the raw bytes; if the hash differs from
the previous one, record it and process the decoded payload inside
`try/except` (a decode failure or a mid-loop `shape` failure becomes an
error message, keeping whatever store mutations already happened);
otherwise report the file as already imported and do nothing. -/
def importUpload (roster : List Customer) (u : RawUpload) (s : AppState) :
    AppState × ImportMsg :=
  let file_hash := hashBytes u.bytes
  if some file_hash ≠ s.last_upload_hash then
    let s1 : AppState := { s with last_upload_hash := some file_hash }
    match u.parsed with
    | .error e => (s1, .failure e)
    | .ok (.featureCollection feats) =>
      match processFeatures roster feats s1.zones 0 with
      | (zones2, .ok imported) => ({ s1 with zones := zones2 }, .successGeo imported)
      | (zones2, .error e) => ({ s1 with zones := zones2 }, .failure e)
    | .ok (.legacy entries) =>
      match processLegacy roster entries s1.zones with
      | (zones2, .ok _) => ({ s1 with zones := zones2 }, .successLegacy entries.length)
      | (zones2, .error e) => ({ s1 with zones := zones2 }, .failure e)
  else
    (s, .alreadyImported)

/-- The export payload: for every stored zone, in store order, its
serialized geometry and its color (members and count are not exported). -/
def export_data (zones : List (String × Zone)) : List (String × LegacyInfo) :=
  zones.map (fun lz => (lz.1, ⟨mappingGeom lz.2.geometry, some lz.2.color⟩))

/-- The user interactions that mutate or read the engine state. -/
inductive Op where
  | draw (p : Polygon) (label : String)
  | upload (u : RawUpload)
  | exportZones
deriving Repr

/-- One synchronous interaction applied to the session state. -/
def stepApp (roster : List Customer) (s : AppState) : Op → AppState
  | .draw p label => { s with zones := save_zone roster p label s.zones }
  | .upload u => (importUpload roster u s).1
  | .exportZones => s

/-- Session states reachable from a fresh session (empty zone dictionary,
no recorded upload hash) by any sequence of interactions. -/
inductive Reachable (roster : List Customer) : AppState → Prop where
  | init : Reachable roster ⟨[], none⟩
  | step {s : AppState} (op : Op) :
      Reachable roster s → Reachable roster (stepApp roster s op)

/-- App version string. -/
def VERSION : String := "v1.4"

/-- The columns of a zone's `data` frame: every loaded roster column plus
the geometry column added by the GeoDataFrame constructor. -/
def csvColumns : List String :=
  ["Customer ID", "Street Address", "Lifetime Net Sales",
   "Lifetime Avg Order Value", "Latitude", "Longitude", "geometry"]

/-- The column subset shown by the on-screen `st.dataframe` table. -/
def displayColumns : List String :=
  ["Customer ID", "Street Address", "Lifetime Net Sales",
   "Lifetime Avg Order Value"]

/-- One CSV row of a zone's `data` frame (all columns; geometry rendered
as well-known text). -/
def customerRow (c : Customer) : List String :=
  [c.customerId, c.streetAddress, toString c.lifetimeNetSales,
   toString c.lifetimeAvgOrderValue, toString c.latitude, toString c.longitude,
   "POINT (" ++ toString c.longitude ++ " " ++ toString c.latitude ++ ")"]

/-- Embedding of `zone["data"].to_csv(index=False)` as a table: the header
row of all frame columns followed by one row per member, in member order. -/
def csvTable (members : List Customer) : List (List String) :=
  csvColumns :: members.map customerRow

/-- The on-screen summary table
`zone["data"][[Customer ID, Street Address, ...]]`: display columns only. -/
def summaryTable (members : List Customer) : List (List String) :=
  displayColumns :: members.map (fun c =>
    [c.customerId, c.streetAddress, toString c.lifetimeNetSales,
     toString c.lifetimeAvgOrderValue])

/-- The per-zone download offered in the summary: file name
`f"{label}_Customers_{VERSION}.csv"` and the full `data` frame as CSV. -/
def zoneDownload (label : String) (z : Zone) : String × List (List String) :=
  (label ++ "_Customers_" ++ VERSION ++ ".csv", csvTable z.data)

/-- A zone record is well formed for a roster: its member list is the
roster filtered by containment in its geometry, and its count is the
member-list length. -/
def ZoneOK (roster : List Customer) (z : Zone) : Prop :=
  z.data = computeMembers roster z.geometry ∧ z.count = z.data.length

/-- Every zone of a store is well formed. -/
def StoreOK (roster : List Customer) (zones : List (String × Zone)) : Prop :=
  ∀ lz ∈ zones, ZoneOK roster lz.2

theorem mem_upsert {zones : List (String × Zone)} {label : String} {z : Zone}
    {lz : String × Zone} (h : lz ∈ upsert zones label z) :
    lz ∈ zones ∨ lz = (label, z) := by
  unfold upsert at h
  by_cases hc : zones.any (fun lz => decide (lz.1 = label)) = true
  · rw [if_pos hc] at h
    rcases List.mem_map.mp h with ⟨a, ha, heq⟩
    by_cases hl : a.1 = label
    · right
      rw [if_pos hl] at heq
      exact heq.symm
    · left
      rw [if_neg hl] at heq
      exact heq ▸ ha
  · rw [if_neg hc] at h
    rcases List.mem_append.mp h with h1 | h2
    · exact Or.inl h1
    · exact Or.inr (List.mem_singleton.mp h2)

theorem storeOK_upsert {roster : List Customer} {zones : List (String × Zone)}
    {label : String} {z : Zone} (h : StoreOK roster zones) (hz : ZoneOK roster z) :
    StoreOK roster (upsert zones label z) := by
  intro lz hlz
  rcases mem_upsert hlz with hin | rfl
  · exact h lz hin
  · exact hz

theorem storeOK_save_zone {roster : List Customer} {zones : List (String × Zone)}
    (p : Polygon) (label : String) (h : StoreOK roster zones) :
    StoreOK roster (save_zone roster p label zones) := by
  unfold save_zone
  by_cases hc : zones.any (fun lz => geomEquals p lz.2.geometry) = true
  · rw [if_pos hc]; exact h
  · rw [if_neg hc]
    exact storeOK_upsert h ⟨rfl, rfl⟩

theorem storeOK_processFeatures (roster : List Customer) (fs : List Feature) :
    ∀ (zones : List (String × Zone)) (n : Nat), StoreOK roster zones →
      StoreOK roster (processFeatures roster fs zones n).1 := by
  induction fs with
  | nil => intro zones n h; simpa [processFeatures] using h
  | cons f rest ih =>
    intro zones n h
    cases hs : shape f.geometry with
    | error e => simpa [processFeatures, hs] using h
    | ok g =>
      simp only [processFeatures, hs]
      exact ih _ _ (storeOK_upsert h ⟨rfl, rfl⟩)

theorem storeOK_processLegacy (roster : List Customer)
    (entries : List (String × LegacyInfo)) :
    ∀ (zones : List (String × Zone)), StoreOK roster zones →
      StoreOK roster (processLegacy roster entries zones).1 := by
  induction entries with
  | nil => intro zones h; simpa [processLegacy] using h
  | cons e rest ih =>
    intro zones h
    cases hs : shape e.2.geometry with
    | error msg => simpa [processLegacy, hs] using h
    | ok g =>
      simp only [processLegacy, hs]
      exact ih _ (storeOK_upsert h ⟨rfl, rfl⟩)

theorem storeOK_importUpload (roster : List Customer) (u : RawUpload)
    (s : AppState) (h : StoreOK roster s.zones) :
    StoreOK roster ((importUpload roster u s).1).zones := by
  unfold importUpload
  by_cases hh : some (hashBytes u.bytes) ≠ s.last_upload_hash
  · rw [if_pos hh]
    cases hp : u.parsed with
    | error e => simpa using h
    | ok d =>
      cases d with
      | featureCollection feats =>
        have hinv := storeOK_processFeatures roster feats s.zones 0 h
        rcases hr : processFeatures roster feats s.zones 0 with ⟨zones2, res⟩
        rw [hr] at hinv
        cases res <;> simpa [hr] using hinv
      | legacy entries =>
        have hinv := storeOK_processLegacy roster entries s.zones h
        rcases hr : processLegacy roster entries s.zones with ⟨zones2, res⟩
        rw [hr] at hinv
        cases res <;> simpa [hr] using hinv
  · rw [if_neg hh]
    exact h

theorem storeOK_stepApp (roster : List Customer) (s : AppState) (op : Op)
    (h : StoreOK roster s.zones) : StoreOK roster (stepApp roster s op).zones := by
  cases op with
  | draw p label => exact storeOK_save_zone p label h
  | upload u => exact storeOK_importUpload roster u s h
  | exportZones => exact h

theorem reachable_storeOK {roster : List Customer} {s : AppState}
    (h : Reachable roster s) : StoreOK roster s.zones := by
  induction h with
  | init => intro lz hlz; cases hlz
  | step op _ ih => exact storeOK_stepApp _ _ op ih

/-- Closed square ring (counterclockwise, closed at the origin). -/
def ringA : List Pt := [⟨0,0⟩,⟨2,0⟩,⟨2,2⟩,⟨0,2⟩,⟨0,0⟩]

/-- Same square as `ringA`, traversed clockwise and closed at `(2,2)`. -/
def ringArev : List Pt := [⟨2,2⟩,⟨2,0⟩,⟨0,0⟩,⟨0,2⟩,⟨2,2⟩]

/-- Square zone geometry around the origin. -/
def sqA : Polygon := ⟨[ringA]⟩

/-- The same geometry as `sqA` with different start vertex and direction. -/
def sqArev : Polygon := ⟨[ringArev]⟩

/-- A disjoint square geometry. -/
def sqB : Polygon := ⟨[[⟨10,0⟩,⟨12,0⟩,⟨12,2⟩,⟨10,2⟩,⟨10,0⟩]]⟩

/-- A customer located at `(1,1)`, inside `sqA`. -/
def cust0 : Customer := ⟨"C-1", "1 Main St", 100, 25, 1, 1⟩

/-- A customer located at `(11,1)`, inside `sqB`. -/
def cust1 : Customer := ⟨"C-2", "2 Oak Ave", 50, 10, 1, 11⟩

/-- A two-customer roster. -/
def roster0 : List Customer := [cust0, cust1]

/-- The zone record the drawn-save path builds for `sqA` on a fresh store. -/
def zA : Zone :=
  ⟨sqA, computeMembers roster0 sqA, (computeMembers roster0 sqA).length, "red"⟩

/-- Claim C1: in every reachable state, every stored zone's member list is
exactly the roster filtered in roster order by the containment test, its
count is that list's length, and a customer is a member iff its point lies
within the geometry; moreover the containment test is boundary-exclusive
(a point on any ring's boundary is not within) and a point in a hole (odd
crossing parity for the exterior ring and for a hole ring) is not within. -/
theorem c1_membership_containment (roster : List Customer) (s : AppState)
    (h : Reachable roster s) :
    (∀ lz ∈ s.zones,
        lz.2.data = roster.filter (fun c => within c.point lz.2.geometry)
        ∧ lz.2.count = lz.2.data.length
        ∧ (∀ c : Customer,
            c ∈ lz.2.data ↔ c ∈ roster ∧ within c.point lz.2.geometry = true))
    ∧ (∀ (p : Pt) (poly : Polygon) (r : List Pt),
        r ∈ poly.rings → onRingBoundary p r = true → within p poly = false)
    ∧ (∀ (p : Pt) (outer hole : List Pt),
        ringCrossOdd p outer = true → ringCrossOdd p hole = true →
        within p ⟨[outer, hole]⟩ = false) := by
  refine ⟨?_, ?_, ?_⟩
  · intro lz hlz
    have hz := reachable_storeOK h lz hlz
    refine ⟨hz.1, hz.2, ?_⟩
    intro c
    rw [hz.1]
    simp [computeMembers, List.mem_filter]
  · intro p poly r hr hb
    have hany : poly.rings.any (fun r => onRingBoundary p r) = true :=
      List.any_eq_true.mpr ⟨r, hr, hb⟩
    simp [within, hany]
  · intro p outer hole h1 h2
    simp [within, h1, h2]

/-- Witness for C1: applied to the reachable state reached by drawing and
saving `sqA`, the boundary-exclusivity part evaluated at the boundary
point `(1,0)` of `sqA`. -/
theorem c1_membership_containment_witness : within ⟨1, 0⟩ sqA = false :=
  (c1_membership_containment roster0
      (stepApp roster0 ⟨[], none⟩ (Op.draw sqA "Zone 1"))
      (Reachable.step (Op.draw sqA "Zone 1") Reachable.init)).2.1
    ⟨1, 0⟩ sqA ringA (by simp [sqA])
    (by norm_num [onRingBoundary, ringEdges, onSegment, ringA, List.rotate])

/-- Claim C3: if some stored zone's geometry is geometrically equal to the
drawn polygon, the drawn-save operation leaves the store completely
unchanged, whatever the supplied label. -/
theorem c3_duplicate_shape_rejected (roster : List Customer)
    (zones : List (String × Zone)) (p : Polygon) (label : String)
    (h : ∃ lz ∈ zones, geomEquals p lz.2.geometry = true) :
    save_zone roster p label zones = zones := by
  unfold save_zone
  rcases h with ⟨lz, hlz, hg⟩
  rw [if_pos (List.any_eq_true.mpr ⟨lz, hlz, hg⟩)]

/-- Witness for C3: re-drawing the stored square with a different start
vertex and opposite traversal direction, under a fresh label, is rejected
and the store is unchanged. -/
theorem c3_duplicate_shape_rejected_witness :
    save_zone roster0 sqArev "Another" [("Zone 1", zA)] = [("Zone 1", zA)] :=
  c3_duplicate_shape_rejected roster0 [("Zone 1", zA)] sqArev "Another"
    ⟨("Zone 1", zA), List.mem_singleton.mpr rfl, by decide⟩

/-- Claim C8: in every reachable state every stored zone satisfies
`count = len(members)`. -/
theorem c8_count_consistent (roster : List Customer) (s : AppState)
    (h : Reachable roster s) :
    ∀ lz ∈ s.zones, lz.2.count = lz.2.data.length := by
  intro lz hlz
  exact (reachable_storeOK h lz hlz).2

/-- Witness for C8: the zone stored by drawing and saving `sqA` on a fresh
session has consistent count. -/
theorem c8_count_consistent_witness : zA.count = zA.data.length :=
  c8_count_consistent roster0
    (stepApp roster0 ⟨[], none⟩ (Op.draw sqA "Zone 1"))
    (Reachable.step (Op.draw sqA "Zone 1") Reachable.init)
    ("Zone 1", zA)
    (by show ("Zone 1", zA) ∈ [("Zone 1", zA)]; exact List.mem_singleton.mpr rfl)

theorem importUpload_hash (roster : List Customer) (u : RawUpload) (s : AppState) :
    ((importUpload roster u s).1).last_upload_hash = some (hashBytes u.bytes) := by
  unfold importUpload
  by_cases hh : some (hashBytes u.bytes) ≠ s.last_upload_hash
  · rw [if_pos hh]
    cases hp : u.parsed with
    | error e => rfl
    | ok d =>
      cases d with
      | featureCollection feats =>
        rcases hr : processFeatures roster feats s.zones 0 with ⟨z2, res⟩
        simp only [hr]
        cases res <;> rfl
      | legacy entries =>
        rcases hr : processLegacy roster entries s.zones with ⟨z2, res⟩
        simp only [hr]
        cases res <;> rfl
  · rw [if_neg hh]
    exact (not_not.mp hh).symm

theorem importUpload_skip (roster : List Customer) (u : RawUpload) (s : AppState)
    (h : s.last_upload_hash = some (hashBytes u.bytes)) :
    importUpload roster u s = (s, .alreadyImported) := by
  unfold importUpload
  rw [if_neg (by simp [h])]

/-- Claim C4: submitting the same raw byte payload twice in immediate
succession makes the second submission a pure no-op detected by the byte
fingerprint: the state is unchanged and the outcome is the
already-imported notice, not an error. -/
theorem c4_reimport_idempotent (roster : List Customer) (u : RawUpload)
    (s : AppState) :
    importUpload roster u (importUpload roster u s).1
      = ((importUpload roster u s).1, .alreadyImported) :=
  importUpload_skip roster u _ (importUpload_hash roster u s)

/-- Claim C10: after any submission the stored fingerprint equals the hash
of the submitted bytes; a submission whose payload fails to parse records
the fingerprint and changes nothing else; hence a byte-identical resubmit,
even right after a failed import, is skipped as already imported. -/
theorem c10_fingerprint_before_parse (roster : List Customer) (u : RawUpload)
    (s : AppState) :
    ((importUpload roster u s).1.last_upload_hash = some (hashBytes u.bytes))
    ∧ (∀ e, u.parsed = .error e →
        some (hashBytes u.bytes) ≠ s.last_upload_hash →
        importUpload roster u s
          = ({ s with last_upload_hash := some (hashBytes u.bytes) }, .failure e))
    ∧ importUpload roster u (importUpload roster u s).1
        = ((importUpload roster u s).1, .alreadyImported) := by
  refine ⟨importUpload_hash roster u s, ?_,
    importUpload_skip roster u _ (importUpload_hash roster u s)⟩
  intro e he hne
  unfold importUpload
  rw [if_pos hne, he]

/-- An upload whose bytes are not valid JSON. -/
def uBad : RawUpload := ⟨[3, 7], .error "Expecting value"⟩

/-- Witness for C10: a failed import on a fresh session records the byte
fingerprint and leaves the store empty, and resubmitting the identical
bytes is skipped. -/
theorem c10_fingerprint_before_parse_witness :
    importUpload roster0 uBad ⟨[], none⟩
      = (⟨[], some (hashBytes uBad.bytes)⟩, .failure "Expecting value")
    ∧ importUpload roster0 uBad (importUpload roster0 uBad ⟨[], none⟩).1
      = ((importUpload roster0 uBad ⟨[], none⟩).1, .alreadyImported) := by
  have h := c10_fingerprint_before_parse roster0 uBad ⟨[], none⟩
  exact ⟨h.2.1 "Expecting value" rfl (by simp), h.2.2⟩

theorem lookupZ_map_replace (label : String) (z : Zone) :
    ∀ zones : List (String × Zone),
      zones.any (fun lz => decide (lz.1 = label)) = true →
      lookupZ label
          (zones.map (fun lz => if lz.1 = label then (label, z) else lz))
        = some z := by
  intro zones
  induction zones with
  | nil => intro h; cases h
  | cons a rest ih =>
    obtain ⟨al, az⟩ := a
    intro h
    simp only [List.map_cons]
    by_cases hl : al = label
    · subst hl
      rw [if_pos (show ((al, az) : String × Zone).1 = al from rfl)]
      simp [lookupZ]
    · rw [if_neg (by simpa using hl)]
      have hrest : rest.any (fun lz => decide (lz.1 = label)) = true := by
        simpa [List.any_cons, hl] using h
      simp only [lookupZ]
      rw [if_neg hl]
      exact ih hrest

theorem lookupZ_append_new (label : String) (z : Zone) :
    ∀ zones : List (String × Zone),
      zones.any (fun lz => decide (lz.1 = label)) = false →
      lookupZ label (zones ++ [(label, z)]) = some z := by
  intro zones
  induction zones with
  | nil => intro _; simp [lookupZ]
  | cons a rest ih =>
    obtain ⟨al, az⟩ := a
    intro h
    have hl : ¬(al = label) := by
      intro hc
      simp [List.any_cons, hc] at h
    have hrest : rest.any (fun lz => decide (lz.1 = label)) = false := by
      simpa [List.any_cons, hl] using h
    simp only [List.cons_append, lookupZ]
    rw [if_neg hl]
    exact ih hrest

theorem lookupZ_upsert (zones : List (String × Zone)) (label : String) (z : Zone) :
    lookupZ label (upsert zones label z) = some z := by
  unfold upsert
  by_cases hc : zones.any (fun lz => decide (lz.1 = label)) = true
  · rw [if_pos hc]
    exact lookupZ_map_replace label z zones hc
  · rw [if_neg hc]
    exact lookupZ_append_new label z zones (Bool.eq_false_iff.mpr hc)

/-- Claim C6: a drawn save on a store with no geometric duplicate stores,
under the supplied label, a zone whose color is
`palette[N mod len(palette)]` where `N` is the zone count immediately
before the insertion (the drawn path never takes a color override). -/
theorem c6_palette_cycling (roster : List Customer)
    (zones : List (String × Zone)) (p : Polygon) (label : String)
    (h : zones.any (fun lz => geomEquals p lz.2.geometry) = false) :
    lookupZ label (save_zone roster p label zones)
      = some ⟨p, computeMembers roster p, (computeMembers roster p).length,
              palette.getD (zones.length % palette.length) "red"⟩ := by
  unfold save_zone
  rw [if_neg (by simp [h])]
  exact lookupZ_upsert zones label _

/-- Witness for C6: saving a second drawn zone on a one-zone store yields
the second palette color, blue. -/
theorem c6_palette_cycling_witness :
    lookupZ "Zone 2" (save_zone roster0 sqB "Zone 2" [("Zone 1", zA)])
      = some ⟨sqB, computeMembers roster0 sqB,
              (computeMembers roster0 sqB).length, "blue"⟩ :=
  c6_palette_cycling roster0 [("Zone 1", zA)] sqB "Zone 2" (by decide)

/-- A valid feature labeled Z1. -/
def featGood1 : Feature := ⟨.polygonGeom sqA.rings, some "Z1", some "red"⟩

/-- A feature whose geometry description cannot be parsed. -/
def featBad : Feature := ⟨.malformed "Unable to parse geometry", some "Z2", none⟩

/-- A valid feature labeled Z3. -/
def featGood3 : Feature := ⟨.polygonGeom sqB.rings, some "Z3", some "blue"⟩

/-- A FeatureCollection upload with one malformed geometry among three
records. -/
def uMixed : RawUpload :=
  ⟨[9, 9], .ok (.featureCollection [featGood1, featBad, featGood3])⟩

/-- Counterexample to C5: importing three records whose middle geometry is
malformed does not yield accepted:2 with a row error — the records after
the bad one are never processed (Z3 is absent), only the zone before it is
stored, and the outcome is a single top-level error. -/
theorem c5_counterexample :
    (importUpload [] uMixed ⟨[], none⟩).1.zones.map Prod.fst = ["Z1"]
    ∧ lookupZ "Z3" (importUpload [] uMixed ⟨[], none⟩).1.zones = none
    ∧ (importUpload [] uMixed ⟨[], none⟩).2
        = .failure "Unable to parse geometry" :=
  ⟨rfl, rfl, rfl⟩

/-- Amended C5: a per-record geometry failure aborts the import at that
record — records before it remain inserted, the failing record and all
records after it are not processed, and the whole import reports the
single error of the failing record. -/
theorem c5_abort_on_record_failure (roster : List Customer)
    (fs1 : List Feature) (f : Feature) (fs2 : List Feature)
    (zones : List (String × Zone)) (n : Nat) (e : String)
    (h1 : ∀ f' ∈ fs1, ∃ g, shape f'.geometry = .ok g)
    (h2 : shape f.geometry = .error e) :
    processFeatures roster (fs1 ++ f :: fs2) zones n
      = ((processFeatures roster fs1 zones n).1, .error e) := by
  revert h1
  induction fs1 generalizing zones n with
  | nil =>
    intro _
    simp [processFeatures, h2]
  | cons f' rest ih =>
    intro h1
    rcases h1 f' (List.mem_cons_self _ _) with ⟨g, hg⟩
    simp only [List.cons_append, processFeatures, hg]
    exact ih _ _ (fun x hx => h1 x (List.mem_cons_of_mem _ hx))

/-- Witness for amended C5: the three-record import with the bad middle
record equals processing just the first record plus the error. -/
theorem c5_abort_on_record_failure_witness :
    processFeatures [] [featGood1, featBad, featGood3] [] 0
      = ((processFeatures [] [featGood1] [] 0).1,
          .error "Unable to parse geometry") :=
  c5_abort_on_record_failure [] [featGood1] featBad [featGood3] [] 0
    "Unable to parse geometry"
    (fun f' hf' => by rw [List.mem_singleton.mp hf']; exact ⟨sqA, rfl⟩) rfl

/-- A pre-existing zone record occupying the store. -/
def z0 : Zone := ⟨sqA, [], 0, "red"⟩

/-- A legacy import record that supplies no color. -/
def uNoColor : RawUpload :=
  ⟨[5], .ok (.legacy [("B", ⟨.polygonGeom sqB.rings, none⟩)])⟩

/-- Counterexample to C7: importing a colorless record into a one-zone
store yields color `"red"`, not the palette-cycled `palette[1] = "blue"`
the claim requires. -/
theorem c7_counterexample :
    lookupZ "B" (importUpload [] uNoColor ⟨[("A", z0)], none⟩).1.zones
        = some ⟨sqB, [], 0, "red"⟩
    ∧ palette.getD (1 % palette.length) "red" = "blue"
    ∧ ("red" : String) ≠ "blue" :=
  ⟨rfl, rfl, by decide⟩

/-- Amended C7: an import record (feature-collection or legacy form) that
supplies no color always resolves to the fixed constant `"red"`,
independent of the current store size. -/
theorem c7_default_color_constant_red (roster : List Customer)
    (zones : List (String × Zone)) (n : Nat)
    (f : Feature) (rest : List Feature) (g : Polygon)
    (label : String) (info : LegacyInfo) (restL : List (String × LegacyInfo))
    (g2 : Polygon) :
    (shape f.geometry = .ok g → f.color = none →
      processFeatures roster (f :: rest) zones n
        = processFeatures roster rest
            (upsert zones (f.name.getD ("Zone " ++ toString (zones.length + 1)))
              ⟨g, computeMembers roster g, (computeMembers roster g).length,
               "red"⟩)
            (n + 1))
    ∧ (shape info.geometry = .ok g2 → info.color = none →
      processLegacy roster ((label, info) :: restL) zones
        = processLegacy roster restL
            (upsert zones label
              ⟨g2, computeMembers roster g2, (computeMembers roster g2).length,
               "red"⟩)) := by
  constructor
  · intro hg hc
    simp [processFeatures, hg, hc]
  · intro hg hc
    simp [processLegacy, hg, hc]

/-- A colorless valid feature labeled B. -/
def featNoColor : Feature := ⟨.polygonGeom sqB.rings, some "B", none⟩

/-- Witness for amended C7: the colorless feature is stored with color
`"red"`. -/
theorem c7_default_color_constant_red_witness :
    processFeatures [] [featNoColor] [] 0
      = processFeatures [] []
          (upsert [] "B"
            ⟨sqB, computeMembers [] sqB, (computeMembers [] sqB).length, "red"⟩)
          1 :=
  (c7_default_color_constant_red [] [] 0 featNoColor [] sqB "B"
      ⟨.polygonGeom sqB.rings, none⟩ [] sqB).1 rfl rfl

/-- Counterexample to C9: the per-zone download table for a zone with one
member starts with the full frame header, which contains the `Latitude`
column — a column outside the fixed display subset, so the download is not
restricted to that subset. -/
theorem c9_counterexample :
    (zoneDownload "Zone 1" ⟨sqA, [cust0], 1, "red"⟩).2
        = [csvColumns, customerRow cust0]
    ∧ "Latitude" ∈ csvColumns
    ∧ "Latitude" ∉ displayColumns :=
  ⟨rfl, by decide, by decide⟩

/-- Amended C9: the per-zone download's rows are exactly the zone's
members in order under the full frame header, and its file name is derived
from the zone label and the version tag; the fixed display subset is a
strict subset of the download columns (the subset applies only to the
on-screen table). -/
theorem c9_download_rows_and_name (label : String) (z : Zone) :
    zoneDownload label z
      = (label ++ "_Customers_" ++ VERSION ++ ".csv",
         csvColumns :: z.data.map customerRow)
    ∧ (zoneDownload label z).2.length = z.data.length + 1
    ∧ (∀ col ∈ displayColumns, col ∈ csvColumns)
    ∧ csvColumns ≠ displayColumns
    ∧ (summaryTable z.data).head? = some displayColumns := by
  refine ⟨rfl, by simp [zoneDownload, csvTable], by decide, by decide, rfl⟩

/-- Witness for amended C9: the download of a one-member zone, and one
display column instantiating the subset inclusion. -/
theorem c9_download_rows_and_name_witness :
    zoneDownload "Zone 1" ⟨sqA, [cust0], 1, "red"⟩
      = ("Zone 1" ++ "_Customers_" ++ VERSION ++ ".csv",
         [csvColumns, customerRow cust0])
    ∧ "Customer ID" ∈ csvColumns := by
  have h := c9_download_rows_and_name "Zone 1" ⟨sqA, [cust0], 1, "red"⟩
  exact ⟨h.1, h.2.2.1 "Customer ID" (by decide)⟩

theorem upsert_append (zones : List (String × Zone)) (label : String) (z : Zone)
    (h : zones.any (fun lz => decide (lz.1 = label)) = false) :
    upsert zones label z = zones ++ [(label, z)] := by
  unfold upsert
  rw [if_neg (by simp [h])]

theorem shape_mapping (p : Polygon) : shape (mappingGeom p) = .ok p := rfl

/-- The zone record the import path rebuilds for a stored zone: same
geometry and color, members recomputed from the roster. -/
def refreshZone (roster : List Customer) (z : Zone) : Zone :=
  ⟨z.geometry, computeMembers roster z.geometry,
   (computeMembers roster z.geometry).length, z.color⟩

theorem refreshZone_eq {roster : List Customer} {z : Zone}
    (h : ZoneOK roster z) : refreshZone roster z = z := by
  obtain ⟨h1, h2⟩ := h
  unfold refreshZone
  rw [← h1, ← h2]

theorem map_refresh_eq (roster : List Customer) :
    ∀ zs : List (String × Zone), (∀ lz ∈ zs, ZoneOK roster lz.2) →
      zs.map (fun lz => (lz.1, refreshZone roster lz.2)) = zs := by
  intro zs
  induction zs with
  | nil => intro _; rfl
  | cons a rest ih =>
    intro hok
    have ha := refreshZone_eq (hok a (List.mem_cons_self _ _))
    have hr := ih (fun x hx => hok x (List.mem_cons_of_mem _ hx))
    simp [ha, hr]

theorem processLegacy_export (roster : List Customer) :
    ∀ (zs acc : List (String × Zone)),
      (∀ lz ∈ zs, acc.any (fun az => decide (az.1 = lz.1)) = false) →
      (zs.map Prod.fst).Nodup →
      processLegacy roster (export_data zs) acc
        = (acc ++ zs.map (fun lz => (lz.1, refreshZone roster lz.2)), .ok ()) := by
  intro zs
  induction zs with
  | nil => intro acc _ _; simp [export_data, processLegacy]
  | cons a rest ih =>
    intro acc hdisj hnodup
    obtain ⟨l, z⟩ := a
    have hhead : acc.any (fun az => decide (az.1 = l)) = false :=
      hdisj (l, z) (List.mem_cons_self _ _)
    simp only [export_data, List.map_cons, processLegacy, shape_mapping,
      Option.getD_some]
    rw [upsert_append acc l _ hhead]
    have hdisj2 : ∀ lz ∈ rest,
        (acc ++ [(l, refreshZone roster z)]).any
            (fun az => decide (az.1 = lz.1)) = false := by
      intro lz hlz
      have hne : ¬(l = lz.1) := by
        intro he
        have : lz.1 ∈ rest.map Prod.fst := List.mem_map_of_mem _ hlz
        rw [← he] at this
        exact (List.nodup_cons.mp (by simpa [List.map_cons] using hnodup)).1 this
      simp [List.any_append, hdisj lz (List.mem_cons_of_mem _ hlz), hne]
    have hnodup2 : (rest.map Prod.fst).Nodup :=
      (List.nodup_cons.mp (by simpa [List.map_cons] using hnodup)).2
    have := ih (acc ++ [(l, refreshZone roster z)]) hdisj2 hnodup2
    rw [show (export_data rest) =
        rest.map (fun lz => (lz.1, (⟨mappingGeom lz.2.geometry, some lz.2.color⟩ : LegacyInfo))) from rfl] at this
    simpa [refreshZone, List.append_assoc] using this

theorem ringEquiv_refl (r : List Pt) : ringEquiv r r = true := by
  simp [ringEquiv]

theorem all_zip_self (l : List (List Pt)) :
    (l.zip l).all (fun rr => ringEquiv rr.1 rr.2) = true := by
  induction l with
  | nil => rfl
  | cons a rest ih => simp [List.all_cons, ringEquiv_refl, ih]

theorem geomEquals_refl (p : Polygon) : geomEquals p p = true := by
  simp [geomEquals, all_zip_self]

/-- Claim C2: importing the payload produced by exporting a store into a
fresh session against the same roster reproduces the store exactly — the
labels in the same order, geometrically equal geometries, identical
colors, and members equal both to an independent containment computation
against the roster and to the original members — and reports a legacy
re-import of the original number of zones. -/
theorem c2_export_import_roundtrip (roster : List Customer)
    (zones : List (String × Zone)) (bs : List Nat)
    (hnodup : (zones.map Prod.fst).Nodup)
    (hok : ∀ lz ∈ zones, lz.2.data = computeMembers roster lz.2.geometry
           ∧ lz.2.count = lz.2.data.length) :
    (importUpload roster ⟨bs, .ok (.legacy (export_data zones))⟩
        ⟨[], none⟩).1.zones = zones
    ∧ (importUpload roster ⟨bs, .ok (.legacy (export_data zones))⟩
        ⟨[], none⟩).2 = .successLegacy zones.length
    ∧ List.Forall₂
        (fun a b => a.1 = b.1
          ∧ geomEquals a.2.geometry b.2.geometry = true
          ∧ a.2.color = b.2.color
          ∧ a.2.data = computeMembers roster a.2.geometry
          ∧ a.2.data = b.2.data)
        (importUpload roster ⟨bs, .ok (.legacy (export_data zones))⟩
          ⟨[], none⟩).1.zones zones := by
  have hpl := processLegacy_export roster zones []
    (fun lz _ => rfl) hnodup
  rw [map_refresh_eq roster zones hok] at hpl
  have hz : (importUpload roster ⟨bs, .ok (.legacy (export_data zones))⟩
      ⟨[], none⟩).1.zones = zones := by
    unfold importUpload
    rw [if_pos (by simp)]
    simp only [hpl, List.nil_append]
  refine ⟨hz, ?_, ?_⟩
  · unfold importUpload
    rw [if_pos (by simp)]
    simp only [hpl, List.nil_append]
    simp [export_data]
  · rw [hz]
    rw [List.forall₂_same]
    intro lz hlz
    exact ⟨rfl, geomEquals_refl _, rfl, (hok lz hlz).1, rfl⟩

/-- Witness for C2: exporting a one-zone store and importing the payload
into a fresh session reproduces the store. -/
theorem c2_export_import_roundtrip_witness :
    (importUpload roster0
        ⟨[2, 4], .ok (.legacy (export_data [("Zone 1", zA)]))⟩
        ⟨[], none⟩).1.zones = [("Zone 1", zA)] :=
  (c2_export_import_roundtrip roster0 [("Zone 1", zA)] [2, 4] (by simp)
    (fun lz hlz => by rw [List.mem_singleton.mp hlz]; exact ⟨rfl, rfl⟩)).1

end DeliveryZone
